import Mathlib

/-!
Verification of the Competitive-Analysis repository (TypeScript sources
`main.ts` and `search-product.ts`, plus the query-building component
`find-product.ts` described by the specification).

Strings are modelled as `List Char` (the character sequence underlying a
JavaScript string); JavaScript numbers appearing in the shopping data are
modelled at integer precision (`Nat`/`Int`), which covers every value the
verified claims depend on.  Fallible operations return `Except`.
-/

namespace CompetitiveAnalysis

/-- Whitespace predicate of JavaScript (`String.prototype.trim` and the `\s`
character class): ASCII whitespace together with the Unicode space
characters. -/
def isJsSpace (c : Char) : Bool :=
  decide (c = ' ' ∨ c = '\t' ∨ c = '\n' ∨ c.toNat = 0x0B ∨ c.toNat = 0x0C ∨ c = '\r' ∨
    c.toNat = 0xA0 ∨ c.toNat = 0x1680 ∨ (0x2000 ≤ c.toNat ∧ c.toNat ≤ 0x200A) ∨
    c.toNat = 0x2028 ∨ c.toNat = 0x2029 ∨ c.toNat = 0x202F ∨ c.toNat = 0x205F ∨
    c.toNat = 0x3000 ∨ c.toNat = 0xFEFF)

/-- `String.prototype.trim`: drop leading and trailing whitespace. -/
def jsTrim (l : List Char) : List Char :=
  List.rdropWhile isJsSpace (List.dropWhile isJsSpace l)

/-- The character class kept by the regex `[^\x00-\x7F]` replacement in
`keepEnglish` (`search-product.ts`, line 30): the Basic Latin block
U+0000 through U+007F. -/
def isBasicLatin (c : Char) : Bool :=
  decide (c.toNat ≤ 0x7F)

/-- `keepEnglish` (`search-product.ts`, lines 27-31):
`if (!text) return ""; return text.replace(/[^\x00-\x7F]/g, "").trim();`.
The `!text` guard is the JavaScript falsiness test, true exactly for the
empty string. -/
def keepEnglish (text : List Char) : List Char :=
  if text.isEmpty then [] else jsTrim (text.filter isBasicLatin)


/-- `ShoppingResult` (`search-product.ts`, lines 7-17).  The numeric fields
(`position`, `extracted_price`, `rating`, `reviews`) are JavaScript numbers;
they are modelled at integer precision, which the claims never exceed. -/
structure ShoppingResult where
  position : Int
  title : List Char
  link : List Char
  source : List Char
  price : List Char
  extracted_price : Nat
  rating : Option Int
  reviews : Option Int
  thumbnail : Option (List Char)
deriving DecidableEq

/-- `search_information` member of the provider response
(`search-product.ts`, lines 21-23); unused by the code under test. -/
structure SearchInformation where
  query_displayed : Option (List Char)
deriving DecidableEq

/-- `SerpApiResponse` (`search-product.ts`, lines 19-24): the listings array
is optional. -/
structure SerpApiResponse where
  shopping_results : Option (List ShoppingResult)
  search_information : Option SearchInformation
deriving DecidableEq

/-- Error raised by `searchProductPrices`: either the missing-credential
`Error` thrown on line 37, or the wrapped upstream failure rejected on
line 68 of `search-product.ts`. -/
inductive SearchFailure where
  | missingKey : List Char → SearchFailure
  | upstreamFailure : List Char → SearchFailure
deriving DecidableEq

/-- Outcome of the upstream `getJson` call: either the parsed JSON response
handed to the callback, or a rejection carrying the error message. -/
inductive UpstreamOutcome where
  | ok : SerpApiResponse → UpstreamOutcome
  | err : List Char → UpstreamOutcome
deriving DecidableEq

/-- Message of the `Error` thrown when the API key is falsy
(`search-product.ts`, line 37). -/
def missingKeyMsg : List Char :=
  "SERPAPI_API_KEY not found in environment variables".data

/-- The guard `if (!apiKey)` on line 36 of `search-product.ts`:
`process.env.SERPAPI_API_KEY` is either absent (`undefined`) or a string,
and the falsiness test also catches the empty string. -/
def credentialMissing : Option (List Char) → Bool
  | none => true
  | some k => k.isEmpty

/-- The per-listing normalization inside the `raw.map` callback
(`search-product.ts`, lines 56-63): spread the listing and replace `title`
and `source` by their `keepEnglish` images.  For `List Char` fields the
JavaScript guards `r.title || ""` and `r.source || ""` are the identity. -/
def normalizeListing (r : ShoppingResult) : ShoppingResult :=
  { r with title := keepEnglish r.title, source := keepEnglish r.source }

/-- The resolve path of `searchProductPrices` (`search-product.ts`,
lines 52-65): `json.shopping_results || []`, then the normalizing map. -/
def processResponse (json : SerpApiResponse) : List ShoppingResult :=
  (json.shopping_results.getD []).map normalizeListing

/-- `searchProductPrices` (`search-product.ts`, lines 34-71) as a function of
the credential read from the environment and of the upstream call's outcome.
The missing-credential branch throws before `getJson` is ever invoked; the
rejection branch wraps the upstream message (line 68). -/
def searchProductPrices (apiKey : Option (List Char)) (up : UpstreamOutcome) :
    Except SearchFailure (List ShoppingResult) :=
  if credentialMissing apiKey then
    Except.error (SearchFailure.missingKey missingKeyMsg)
  else
    match up with
    | UpstreamOutcome.ok json => Except.ok (processResponse json)
    | UpstreamOutcome.err m =>
        Except.error (SearchFailure.upstreamFailure ("SerpAPI search failed: ".data ++ m))

/-- `true` exactly when the promise returned by `searchProductPrices`
rejects. -/
def isSearchFailure : Except SearchFailure (List ShoppingResult) → Bool
  | Except.error _ => true
  | Except.ok _ => false

/-- `true` exactly when the upstream `getJson` call errors. -/
def upstreamErrored : UpstreamOutcome → Bool
  | UpstreamOutcome.err _ => true
  | UpstreamOutcome.ok _ => false

/-- Decimal digit string of a natural number, `n.toString(10)` in
JavaScript. -/
def natDigits (n : Nat) : List Char := (Nat.repr n).data

/-- Grouping step of `toLocaleString("en-IN")` on the reversed digit list
after the first group of three: commas every two digits. -/
def groupPairsRev : List Char → List Char
  | [] => []
  | [d] => [d]
  | [d, e] => [d, e]
  | d :: e :: f :: rest => d :: e :: ',' :: groupPairsRev (f :: rest)

/-- `n.toLocaleString("en-IN")` for a non-negative integer `n`: the last
three digits form one group, the remaining digits are grouped in pairs,
groups separated by commas (Indian digit grouping). -/
def toLocaleEnIN (n : Nat) : List Char :=
  let ds := natDigits n
  if ds.length ≤ 3 then ds
  else (ds.reverse.take 3 ++ ',' :: groupPairsRev (ds.reverse.drop 3)).reverse


/-- The currency-prefix literal of `formatPrice` (`search-product.ts`,
line 76): the source file contains the three characters U+00E2 U+201A U+00B9
(a mojibake rendering of the rupee sign). -/
def rupeeLiteral : List Char := ['â', '‚', '¹']

/-- `formatPrice` (`search-product.ts`, lines 74-77) on the numeric branch,
the only one `displayTable` exercises (it always passes
`result.extracted_price`, a number). -/
def formatPrice (price : Nat) : List Char :=
  rupeeLiteral ++ toLocaleEnIN price

/-- `padString` (`search-product.ts`, lines 124-127): `str.padEnd(length, " ")`
pads with spaces up to `length` and leaves longer strings unchanged. -/
def padString (str : List Char) (len : Nat) : List Char :=
  str ++ List.replicate (len - str.length) ' '

/-- `truncateString` (`search-product.ts`, lines 129-133): strings within
`maxLength` are returned unchanged, longer ones are cut to `maxLength - 3`
characters followed by `"..."`. -/
def truncateString (str : List Char) (maxLength : Nat) : List Char :=
  if str.length ≤ maxLength then str else str.take (maxLength - 3) ++ "...".data

/-- Seller cell of a data row (`displayTable`, lines 105 and 110):
`result.source || "Unknown"` truncated to and padded at width 30. -/
def sellerCell (r : ShoppingResult) : List Char :=
  padString (truncateString (if r.source.isEmpty then "Unknown".data else r.source) 30) 30

/-- Price cell of a data row (`displayTable`, lines 106 and 112): the
formatted price is padded at width 15 but never truncated. -/
def priceCell (r : ShoppingResult) : List Char :=
  padString (formatPrice r.extracted_price) 15

/-- Title cell of a data row (`displayTable`, lines 107 and 114):
`result.title || "No title"` truncated to and padded at width 60. -/
def titleCell (r : ShoppingResult) : List Char :=
  padString (truncateString (if r.title.isEmpty then "No title".data else r.title) 60) 60

/-- One data row printed by `displayTable` (lines 109-115). -/
def renderRow (r : ShoppingResult) : List Char :=
  sellerCell r ++ " | ".data ++ priceCell r ++ " | ".data ++ titleCell r

/-- Total separator width: `columnWidths.ecommerce + columnWidths.price +
columnWidths.title + 6 = 111`. -/
def tableWidth : Nat := 30 + 15 + 60 + 6

/-- The `"=".repeat(111)` separator line. -/
def eqSepLine : List Char := List.replicate tableWidth '='

/-- The `"-".repeat(111)` separator line. -/
def dashSepLine : List Char := List.replicate tableWidth '-'

/-- The header row (`displayTable`, lines 89-95). -/
def headerLine : List Char :=
  padString "E-Commerce Name".data 30 ++ " | ".data ++
    padString "Price".data 15 ++ " | ".data ++ padString "Title".data 60

/-- The body marker printed when there are no results
(`displayTable`, line 103). -/
def noResultsLine : List Char := "No results found!".data

/-- The trailing count line (`displayTable`, line 121). -/
def footerLine (n : Nat) : List Char :=
  '\n' :: ("Total results shown (Indian sites only): ".data ++ natDigits n ++ ['\n'])

/-- Body rows of the table (`displayTable`, lines 102-117): the no-results
marker for an empty list, otherwise one rendered row per listing. -/
def bodyRows (results : List ShoppingResult) : List (List Char) :=
  if results.length = 0 then [noResultsLine] else results.map renderRow

/-- `displayTable` (`search-product.ts`, lines 80-122) as the ordered list of
strings passed to `console.log`. -/
def displayTable (results : List ShoppingResult) : List (List Char) :=
  ('\n' :: eqSepLine) :: headerLine :: eqSepLine :: dashSepLine ::
    bodyRows results ++ [eqSepLine, footerLine results.length]

/-- Metadata member of the analysis result (`main.ts`, lines 8-15). -/
structure AnalysisMetadata where
  provider : Option (List Char)
  model : Option (List Char)
  userText : Option (List Char)
  imageProductName : Option (List Char)
  imageCount : Option Nat
  timestamp : List Char
deriving DecidableEq

/-- `ProductSearchResult` (`main.ts`, lines 4-16): the value returned by
`findProductFeatures`. -/
structure ProductSearchResult where
  success : Bool
  searchQuery : Option (List Char)
  error : Option (List Char)
  metadata : AnalysisMetadata
deriving DecidableEq

/-- Observable steps of the `main` pipeline (`main.ts`, lines 18-66), in the
order they are performed. -/
inductive MainEvent where
  | queryBuilt : List Char → MainEvent
  | analysisErrorReported : List Char → MainEvent
  | searchCalled : List Char → MainEvent
  | tableDisplayed : List (List Char) → MainEvent
  | fatalErrorReported : List Char → MainEvent
deriving DecidableEq

/-- The control flow of `main` (`main.ts`, lines 18-66) as a function of the
`findProductFeatures` result and of the behaviour of the search call: when
`findResult.success` is false the error is logged and `main` returns
(lines 32-35); otherwise the query is logged, `searchProductPrices` is
invoked (line 49) and either the table is displayed or the thrown search
failure is caught by the surrounding `catch` (lines 60-62). -/
def mainEvents (findResult : ProductSearchResult)
    (searchOutcome : Except (List Char) (List ShoppingResult)) : List MainEvent :=
  if findResult.success then
    MainEvent.queryBuilt (findResult.searchQuery.getD []) ::
      MainEvent.searchCalled (findResult.searchQuery.getD []) ::
      (match searchOutcome with
       | Except.ok rs => [MainEvent.tableDisplayed (displayTable rs)]
       | Except.error e => [MainEvent.fatalErrorReported e])
  else
    [MainEvent.analysisErrorReported (findResult.error.getD [])]

/-- Modelled from the spec: the query-building component lives in
`find-product.ts`, which is not part of the sources under `src/`.  Tokenizer
described by §4.2 step 2 of the specification: split on runs of whitespace,
dropping the empty tokens produced by leading, trailing or internal
whitespace.  `acc` carries the characters of the token currently being read,
in reverse. -/
def tokensAux : List Char → List Char → List (List Char)
  | [], acc => if acc.isEmpty then [] else [acc.reverse]
  | c :: rest, acc =>
    if isJsSpace c then
      if acc.isEmpty then tokensAux rest [] else acc.reverse :: tokensAux rest []
    else
      tokensAux rest (c :: acc)

/-- Modelled from the spec (§4.2 step 2): the whitespace-delimited tokens of
a string, empty tokens excluded. -/
def tokenize (l : List Char) : List (List Char) := tokensAux l []


/-- Modelled from the spec (§4.2 step 2): lowercase, then tokenize. -/
def lowerTokens (s : List Char) : List (List Char) :=
  tokenize (s.map Char.toLower)

/-- Modelled from the spec (§4.2 step 3c): the fixed stop-word set. -/
def stopWords : List (List Char) :=
  ["the", "and", "for", "with", "from", "this", "that", "product", "model"].map String.data

/-- Modelled from the spec (§4.2 step 3): the image tokens that are not
anywhere in the user-token set, have length strictly greater than 2, and are
not stop-words, in their original relative order. -/
def filteredImageTokens (userText imageText : List Char) : List (List Char) :=
  (lowerTokens imageText).filter fun t =>
    decide (t ∉ lowerTokens userText) && decide (2 < t.length) && decide (t ∉ stopWords)

/-- Modelled from the spec (§4.2 step 5): deduplicate preserving the first
occurrence of each token. -/
def dedupFirst : List (List Char) → List (List Char)
  | [] => []
  | t :: ts => t :: (dedupFirst ts).filter fun x => decide (x ≠ t)


/-- Modelled from the spec (§4.2 step 6): join a token list with single
spaces. -/
def joinSpaces : List (List Char) → List Char
  | [] => []
  | [t] => t
  | t :: r :: rest => t ++ ' ' :: joinSpaces (r :: rest)

/-- Modelled from the spec: `buildSearchQuery` of `find-product.ts` is not
included under `src/`; this definition follows §4.2 of the specification
step by step — empty-input short-circuit (step 1), lowercasing and
tokenization (step 2), the image-token filter (step 3), concatenation in
order (step 4), first-occurrence deduplication (step 5), and the
space-join with a final trim (step 6). -/
def buildSearchQuery (userText imageText : List Char) : List Char :=
  if userText = [] ∧ imageText = [] then []
  else
    jsTrim (joinSpaces (dedupFirst
      (lowerTokens userText ++ filteredImageTokens userText imageText)))


/-! Concrete sample data used by witnesses and counterexamples. -/

/-- A provider response with no `shopping_results` member. -/
def respEmpty : SerpApiResponse := ⟨none, none⟩

/-- A well-formed sample listing. -/
def sampleListing : ShoppingResult :=
  ⟨1, "Phone X 5G".data, "http://example.in/x".data, "Shop".data, "25,999".data,
    25999, none, none, none⟩

/-- A provider response carrying the sample listing. -/
def sampleResp : SerpApiResponse := ⟨some [sampleListing], none⟩

/-- The sample listing as resolved by `searchProductPrices`. -/
def sampleOut : ShoppingResult := normalizeListing sampleListing

/-- A listing whose title contains the control character U+0001, which lies
inside the Basic Latin block but outside its printable range. -/
def ctrlListing : ShoppingResult :=
  ⟨1, ['a', '\x01', 'b'], [], ['S'], [], 10, none, none, none⟩

/-- A provider response carrying the control-character listing. -/
def ctrlResp : SerpApiResponse := ⟨some [ctrlListing], none⟩

/-- A listing whose extracted price formats to more than 15 characters. -/
def hugeListing : ShoppingResult :=
  ⟨1, "x".data, [], "s".data, [], 1234567890, none, none, none⟩

/-- A listing with empty `title` and `source`. -/
def emptyFieldsListing : ShoppingResult := ⟨1, [], [], [], [], 0, none, none, none⟩

/-- Metadata sample for analysis results. -/
def sampleMetadata : AnalysisMetadata := ⟨none, none, none, none, none, "2025-01-01".data⟩

/-- A failure-variant analysis result. -/
def failedResult : ProductSearchResult :=
  ⟨false, none, some "No query generated".data, sampleMetadata⟩

/-! Lemmas about `jsTrim`. -/

theorem rdropWhile_append_eq (p : Char → Bool) (A : List Char) :
    ∃ s, List.rdropWhile p A ++ s = A := by
  obtain ⟨s, hs⟩ := List.dropWhile_suffix (l := A.reverse) p
  refine ⟨s.reverse, ?_⟩
  have h := congrArg List.reverse hs
  simpa [List.rdropWhile, List.reverse_append] using h

theorem dropWhile_rdropWhile_dropWhile (p : Char → Bool) (l : List Char) :
    List.dropWhile p (List.rdropWhile p (List.dropWhile p l)) =
      List.rdropWhile p (List.dropWhile p l) := by
  cases hR : List.rdropWhile p (List.dropWhile p l) with
  | nil => simp
  | cons c r =>
    obtain ⟨s, hs⟩ := rdropWhile_append_eq p (List.dropWhile p l)
    rw [hR] at hs
    have hne : List.dropWhile p l ≠ [] := by
      rw [← hs]; simp
    have hhead := List.head_dropWhile_not p l hne
    have hc : (List.dropWhile p l).head hne = c := by
      have h2 : (List.dropWhile p l).head? = some c := by rw [← hs]; rfl
      rw [List.head?_eq_head hne] at h2
      exact Option.some.inj h2
    rw [hc] at hhead
    simp [List.dropWhile_cons, hhead]

theorem jsTrim_idem (l : List Char) : jsTrim (jsTrim l) = jsTrim l := by
  unfold jsTrim
  rw [dropWhile_rdropWhile_dropWhile, List.rdropWhile_idempotent]

theorem mem_jsTrim {c : Char} {l : List Char} (h : c ∈ jsTrim l) : c ∈ l := by
  unfold jsTrim List.rdropWhile at h
  rw [List.mem_reverse] at h
  have h1 := List.dropWhile_subset (l := (List.dropWhile isJsSpace l).reverse) isJsSpace h
  rw [List.mem_reverse] at h1
  exact List.dropWhile_subset isJsSpace h1

/-! Lemmas about `keepEnglish`. -/

theorem mem_keepEnglish_basicLatin {c : Char} {s : List Char}
    (h : c ∈ keepEnglish s) : c.toNat ≤ 0x7F := by
  unfold keepEnglish at h
  by_cases hs : s.isEmpty
  · simp [hs] at h
  · rw [if_neg hs] at h
    have h1 := mem_jsTrim h
    have h2 := List.of_mem_filter h1
    simpa [isBasicLatin] using h2

theorem jsTrim_keepEnglish (s : List Char) : jsTrim (keepEnglish s) = keepEnglish s := by
  unfold keepEnglish
  by_cases hs : s.isEmpty
  · simp [hs, jsTrim]
  · rw [if_neg hs, jsTrim_idem]

/-- C10: the ASCII normalization `keepEnglish` applied to listing titles and
sources is idempotent: a second application returns its input unchanged. -/
theorem keepEnglish_idempotent (s : List Char) :
    keepEnglish (keepEnglish s) = keepEnglish s := by
  by_cases hs : s.isEmpty
  · simp [keepEnglish, hs]
  · show keepEnglish (keepEnglish s) = keepEnglish s
    by_cases hk : (keepEnglish s).isEmpty
    · rw [List.isEmpty_iff] at hk
      rw [hk]
      simp [keepEnglish]
    · rw [keepEnglish, if_neg hk]
      have hfix : (keepEnglish s).filter isBasicLatin = keepEnglish s :=
        List.filter_eq_self.mpr fun c hc => by
          simpa [isBasicLatin] using mem_keepEnglish_basicLatin hc
      rw [hfix, jsTrim_keepEnglish]

/-! Lemmas about the tokenizer and the space-join. -/

theorem tokensAux_valid (l : List Char) :
    ∀ acc, (∀ c ∈ acc, isJsSpace c = false) →
      ∀ t ∈ tokensAux l acc, t ≠ [] ∧ ∀ c ∈ t, isJsSpace c = false := by
  induction l with
  | nil =>
    intro acc hacc t ht
    by_cases h : acc.isEmpty
    · simp [tokensAux, h] at ht
    · rw [tokensAux, if_neg h, List.mem_singleton] at ht
      subst ht
      refine ⟨by simpa [List.isEmpty_iff] using h, fun c hc => hacc c ?_⟩
      simpa using hc
  | cons a rest ih =>
    intro acc hacc t ht
    rw [tokensAux] at ht
    by_cases ha : isJsSpace a
    · rw [if_pos ha] at ht
      by_cases h : acc.isEmpty
      · exact ih [] (by simp) t (by simpa [h] using ht)
      · rw [if_neg h, List.mem_cons] at ht
        rcases ht with ht | ht
        · subst ht
          refine ⟨by simpa [List.isEmpty_iff] using h, fun c hc => hacc c ?_⟩
          simpa using hc
        · exact ih [] (by simp) t ht
    · rw [if_neg ha] at ht
      refine ih (a :: acc) ?_ t ht
      intro c hc
      rcases List.mem_cons.1 hc with hc | hc
      · subst hc; simpa using ha
      · exact hacc c hc

theorem tokenize_valid (l : List Char) :
    ∀ t ∈ tokenize l, t ≠ [] ∧ ∀ c ∈ t, isJsSpace c = false :=
  tokensAux_valid l [] (by simp)

theorem tokensAux_append (t : List Char) :
    ∀ (l acc : List Char), (∀ c ∈ t, isJsSpace c = false) →
      tokensAux (t ++ l) acc = tokensAux l (t.reverse ++ acc) := by
  induction t with
  | nil => intro l acc _; simp
  | cons c t' ih =>
    intro l acc h
    have hc : isJsSpace c = false := h c (by simp)
    rw [List.cons_append, tokensAux, if_neg (by simp [hc])]
    rw [ih l (c :: acc) fun d hd => h d (by simp [hd])]
    simp

theorem tokenize_single (t : List Char) (hne : t ≠ [])
    (hws : ∀ c ∈ t, isJsSpace c = false) : tokenize t = [t] := by
  have h := tokensAux_append t [] [] hws
  rw [List.append_nil] at h
  rw [tokenize, h, tokensAux]
  rw [if_neg (by simpa [List.isEmpty_iff] using hne)]
  simp

theorem tokenize_joinSpaces :
    ∀ ts : List (List Char),
      (∀ t ∈ ts, t ≠ [] ∧ ∀ c ∈ t, isJsSpace c = false) →
      tokenize (joinSpaces ts) = ts := by
  intro ts
  induction ts with
  | nil => intro _; rfl
  | cons t rest ih =>
    intro h
    obtain ⟨hne, hws⟩ := h t (by simp)
    cases rest with
    | nil => exact tokenize_single t hne hws
    | cons r rs =>
      rw [joinSpaces, tokenize, tokensAux_append t (' ' :: joinSpaces (r :: rs)) [] hws]
      rw [List.append_nil, tokensAux, if_pos (by simp [isJsSpace])]
      rw [if_neg (by simpa [List.isEmpty_iff] using hne)]
      rw [List.reverse_reverse]
      have := ih fun x hx => h x (by simp [hx])
      rw [tokenize] at this
      rw [this]

theorem joinSpaces_ne_nil (t : List Char) (ts : List (List Char)) (hne : t ≠ []) :
    joinSpaces (t :: ts) ≠ [] := by
  cases ts with
  | nil => simpa [joinSpaces] using hne
  | cons r rs =>
    simp [joinSpaces]

theorem joinSpaces_getLast :
    ∀ ts : List (List Char),
      (∀ t ∈ ts, t ≠ [] ∧ ∀ c ∈ t, isJsSpace c = false) →
      ∀ c, (joinSpaces ts).getLast? = some c → isJsSpace c = false := by
  intro ts
  induction ts with
  | nil => intro _ c hc; simp [joinSpaces] at hc
  | cons t rest ih =>
    intro hv c hc
    obtain ⟨hne, hws⟩ := hv t (by simp)
    cases rest with
    | nil =>
      rw [show joinSpaces [t] = t from rfl] at hc
      exact hws c (List.mem_of_getLast?_eq_some hc)
    | cons r rs =>
      obtain ⟨hne', _⟩ := hv r (by simp)
      have hJ : joinSpaces (r :: rs) ≠ [] := joinSpaces_ne_nil r rs hne'
      obtain ⟨d, hd⟩ : ∃ d, (joinSpaces (r :: rs)).getLast? = some d := by
        cases h' : (joinSpaces (r :: rs)).getLast? with
        | none => exact absurd (List.getLast?_eq_none_iff.mp h') hJ
        | some d => exact ⟨d, rfl⟩
      have hlast : (' ' :: joinSpaces (r :: rs)).getLast? = some d := by
        obtain ⟨x, xs, hxs⟩ := List.exists_cons_of_ne_nil hJ
        rw [hxs, List.getLast?_cons_cons, ← hxs, hd]
      have hc2 : some d = some c := by
        rw [show joinSpaces (t :: r :: rs) = t ++ ' ' :: joinSpaces (r :: rs) from rfl,
          List.getLast?_append, hlast] at hc
        simpa using hc
      obtain rfl := Option.some.inj hc2
      exact ih (fun y hy => hv y (by simp [hy])) d hd

theorem joinSpaces_head_valid :
    ∀ ts : List (List Char),
      (∀ t ∈ ts, t ≠ [] ∧ ∀ c ∈ t, isJsSpace c = false) →
      ∀ hl : 0 < (joinSpaces ts).length,
        isJsSpace ((joinSpaces ts).get ⟨0, hl⟩) = false := by
  intro ts
  cases ts with
  | nil => intro _ hl; simp [joinSpaces] at hl
  | cons t rest =>
    intro hv hl
    obtain ⟨hne, hws⟩ := hv t (by simp)
    obtain ⟨c, t', rfl⟩ := List.exists_cons_of_ne_nil hne
    have hshape : ∃ rtail, joinSpaces ((c :: t') :: rest) = c :: rtail := by
      cases rest with
      | nil => exact ⟨t', rfl⟩
      | cons r rs => exact ⟨t' ++ ' ' :: joinSpaces (r :: rs), rfl⟩
    obtain ⟨rtail, hr⟩ := hshape
    have : (joinSpaces ((c :: t') :: rest)).get ⟨0, hl⟩ = c := by
      simp [hr]
    rw [this]
    exact hws c (by simp)

theorem jsTrim_joinSpaces (ts : List (List Char))
    (hv : ∀ t ∈ ts, t ≠ [] ∧ ∀ c ∈ t, isJsSpace c = false) :
    jsTrim (joinSpaces ts) = joinSpaces ts := by
  unfold jsTrim
  have h1 : List.dropWhile isJsSpace (joinSpaces ts) = joinSpaces ts := by
    rw [List.dropWhile_eq_self_iff]
    intro hl
    have h2 := joinSpaces_head_valid ts hv hl
    simp only [List.get_eq_getElem] at h2
    simp [h2]
  rw [h1, List.rdropWhile_eq_self_iff]
  intro hl
  have hq := List.getLast?_eq_getLast (joinSpaces ts) hl
  have h3 := joinSpaces_getLast ts hv _ hq
  simp [h3]

theorem dedupFirst_subset (x : List Char) :
    ∀ l : List (List Char), x ∈ dedupFirst l → x ∈ l := by
  intro l
  induction l with
  | nil => intro h; simp [dedupFirst] at h
  | cons t ts ih =>
    intro h
    rw [dedupFirst, List.mem_cons] at h
    rcases h with h | h
    · simp [h]
    · exact List.mem_cons_of_mem t (ih (List.mem_of_mem_filter h))

/-! Lemmas about the table cells. -/

theorem truncateString_length_le (s : List Char) (w : Nat) (hw : 3 ≤ w) :
    (truncateString s w).length ≤ w := by
  unfold truncateString
  by_cases h : s.length ≤ w
  · rw [if_pos h]; exact h
  · rw [if_neg h]
    simp only [List.length_append, List.length_take]
    have : ¬ s.length ≤ w := h
    simp only [List.length]
    omega

theorem padString_length (s : List Char) (n : Nat) :
    (padString s n).length = max s.length n := by
  simp only [padString, List.length_append, List.length_replicate]
  omega

/-! Claim theorems. -/

/-- C1 (amended; modelled from the spec, `find-product.ts` being absent from
`src/`): an image-derived token appears in the output of `buildSearchQuery`
only if it is not present anywhere in the user token set, has length
strictly greater than 2, and is not a stop-word; in particular
`buildSearchQuery "iqoo neo" "this iqoo neo 5g and model"` returns
`"iqoo neo"` — the token `5g` has length 2 and is dropped by the length
filter, so it cannot survive into the output. -/
theorem buildSearchQuery_image_token_filter (u i t : List Char)
    (ht : t ∈ tokenize (buildSearchQuery u i)) (hu : t ∉ lowerTokens u) :
    (t ∈ lowerTokens i ∧ 2 < t.length ∧ t ∉ stopWords) ∧
    buildSearchQuery "iqoo neo".data "this iqoo neo 5g and model".data = "iqoo neo".data := by
  constructor
  · unfold buildSearchQuery at ht
    by_cases h0 : u = [] ∧ i = []
    · rw [if_pos h0] at ht
      simp [tokenize, tokensAux] at ht
    · rw [if_neg h0] at ht
      have hvalid : ∀ x ∈ dedupFirst (lowerTokens u ++ filteredImageTokens u i),
          x ≠ [] ∧ ∀ c ∈ x, isJsSpace c = false := by
        intro x hx
        have hx' := dedupFirst_subset x _ hx
        rcases List.mem_append.1 hx' with h | h
        · exact tokenize_valid _ x h
        · exact tokenize_valid _ x (List.mem_of_mem_filter h)
      rw [jsTrim_joinSpaces _ hvalid, tokenize_joinSpaces _ hvalid] at ht
      have ht' := dedupFirst_subset t _ ht
      rcases List.mem_append.1 ht' with h | h
      · exact absurd h hu
      · obtain ⟨hmem, hp⟩ := List.mem_filter.1 h
        simp only [Bool.and_eq_true, decide_eq_true_eq] at hp
        exact ⟨hmem, hp.1.2, hp.2⟩
  · decide

/-- Witness for C1 at a concrete input: in
`buildSearchQuery "galaxy" "pro"` the surviving image token `pro` satisfies
all three filter conditions. -/
theorem buildSearchQuery_image_token_filter_witness :
    ("pro".data ∈ lowerTokens "pro".data ∧ 2 < "pro".data.length ∧
      "pro".data ∉ stopWords) ∧
    buildSearchQuery "iqoo neo".data "this iqoo neo 5g and model".data = "iqoo neo".data :=
  buildSearchQuery_image_token_filter "galaxy".data "pro".data "pro".data
    (by decide) (by decide)

/-- C1 counterexample: the output claimed by the specification's example,
`"iqoo neo 5g"`, is not what the specified algorithm produces — the token
`5g` fails the strictly-greater-than-2 length filter. -/
theorem buildSearchQuery_example_refuted :
    buildSearchQuery "iqoo neo".data "this iqoo neo 5g and model".data ≠
      "iqoo neo 5g".data := by
  decide

/-- C2 (amended): every listing resolved by `searchProductPrices` has its
`title` and `source` consisting only of Basic Latin characters
(U+0000 – U+007F, not only the printable ones) with leading and trailing
whitespace trimmed, for every possible provider response. -/
theorem searchProductPrices_ascii_trimmed (key : Option (List Char))
    (up : UpstreamOutcome) (rs : List ShoppingResult)
    (h : searchProductPrices key up = Except.ok rs) :
    ∀ r ∈ rs, (∀ c ∈ r.title, c.toNat ≤ 0x7F) ∧ jsTrim r.title = r.title ∧
      (∀ c ∈ r.source, c.toNat ≤ 0x7F) ∧ jsTrim r.source = r.source := by
  intro r hr
  unfold searchProductPrices at h
  by_cases hk : credentialMissing key = true
  · rw [if_pos hk] at h
    simp at h
  · rw [if_neg hk] at h
    cases up with
    | err m => simp at h
    | ok json =>
      simp only [Except.ok.injEq] at h
      subst h
      obtain ⟨r0, _, rfl⟩ := List.mem_map.1 hr
      refine ⟨fun c hc => mem_keepEnglish_basicLatin (by simpa [normalizeListing] using hc),
        by simp [normalizeListing, jsTrim_keepEnglish],
        fun c hc => mem_keepEnglish_basicLatin (by simpa [normalizeListing] using hc),
        by simp [normalizeListing, jsTrim_keepEnglish]⟩

/-- Witness for C2 on the sample response. -/
theorem searchProductPrices_ascii_trimmed_witness :
    (∀ c ∈ sampleOut.title, c.toNat ≤ 0x7F) ∧ jsTrim sampleOut.title = sampleOut.title ∧
    (∀ c ∈ sampleOut.source, c.toNat ≤ 0x7F) ∧ jsTrim sampleOut.source = sampleOut.source :=
  searchProductPrices_ascii_trimmed (some ['k']) (UpstreamOutcome.ok sampleResp)
    (processResponse sampleResp) rfl sampleOut (by decide)

/-- C2 counterexample: the control character U+0001 lies inside the Basic
Latin block, so `keepEnglish` keeps it and a resolved listing's `title` can
contain a character outside the printable range U+0020 – U+007E. -/
theorem searchProductPrices_printable_refuted :
    searchProductPrices (some ['k']) (UpstreamOutcome.ok ctrlResp) =
      Except.ok [ctrlListing] ∧
    '\x01' ∈ ctrlListing.title ∧ ¬(32 ≤ ('\x01').toNat ∧ ('\x01').toNat ≤ 126) :=
  ⟨rfl, by decide, by decide⟩

/-- C3 (amended): `searchProductPrices` fails exactly when the credential is
absent or empty ("not configured") or the upstream call errors; in the
missing-credential case it throws the error naming `SERPAPI_API_KEY`, and
the result does not depend on the upstream outcome — no upstream call is
consulted. -/
theorem searchProductPrices_failure_iff (key : Option (List Char)) (up : UpstreamOutcome) :
    (isSearchFailure (searchProductPrices key up) = true ↔
      (credentialMissing key = true ∨ upstreamErrored up = true)) ∧
    (credentialMissing key = true →
      searchProductPrices key up = Except.error (SearchFailure.missingKey missingKeyMsg) ∧
      missingKeyMsg.take 15 = "SERPAPI_API_KEY".data ∧
      ∀ up', searchProductPrices key up = searchProductPrices key up') := by
  constructor
  · by_cases hk : credentialMissing key = true
    · simp [searchProductPrices, hk, isSearchFailure]
    · cases up with
      | ok json => simp [searchProductPrices, hk, isSearchFailure, upstreamErrored]
      | err m => simp [searchProductPrices, hk, isSearchFailure, upstreamErrored]
  · intro hk
    exact ⟨by simp [searchProductPrices, hk], by decide,
      fun up' => by simp [searchProductPrices, hk]⟩

/-- Witness for C3 with the credential absent: the named error is raised and
the outcome is independent of the upstream call. -/
theorem searchProductPrices_failure_iff_witness :
    searchProductPrices none (UpstreamOutcome.ok respEmpty) =
      Except.error (SearchFailure.missingKey missingKeyMsg) ∧
    missingKeyMsg.take 15 = "SERPAPI_API_KEY".data ∧
    searchProductPrices none (UpstreamOutcome.ok respEmpty) =
      searchProductPrices none (UpstreamOutcome.err "boom".data) := by
  have h := (searchProductPrices_failure_iff none (UpstreamOutcome.ok respEmpty)).2 rfl
  exact ⟨h.1, h.2.1, h.2.2 (UpstreamOutcome.err "boom".data)⟩

/-- C3 counterexample: with `SERPAPI_API_KEY` present in the environment but
equal to the empty string, the call fails even though the credential is not
absent and the upstream call would have succeeded — the code tests
falsiness, not absence. -/
theorem searchProductPrices_absent_refuted :
    (some ([] : List Char)) ≠ none ∧
    isSearchFailure (searchProductPrices (some []) (UpstreamOutcome.ok respEmpty)) = true ∧
    upstreamErrored (UpstreamOutcome.ok respEmpty) = false :=
  ⟨by simp, rfl, rfl⟩

/-- C4: whenever `findProductFeatures` returns the failure variant, `main`
reports the error as a readable message, never invokes
`searchProductPrices` in that run, and the run does not depend on the
search behaviour at all. -/
theorem main_failure_halts (fr : ProductSearchResult)
    (so : Except (List Char) (List ShoppingResult)) (h : fr.success = false) :
    MainEvent.analysisErrorReported (fr.error.getD []) ∈ mainEvents fr so ∧
    (∀ q, MainEvent.searchCalled q ∉ mainEvents fr so) ∧
    ∀ so', mainEvents fr so = mainEvents fr so' := by
  refine ⟨?_, ?_, ?_⟩ <;> simp [mainEvents, h]

/-- Witness for C4 on a concrete failed analysis result. -/
theorem main_failure_halts_witness :
    MainEvent.analysisErrorReported (failedResult.error.getD []) ∈
      mainEvents failedResult (Except.ok []) ∧
    MainEvent.searchCalled "q".data ∉ mainEvents failedResult (Except.ok []) ∧
    mainEvents failedResult (Except.ok []) =
      mainEvents failedResult (Except.error "down".data) := by
  have h := main_failure_halts failedResult (Except.ok []) rfl
  exact ⟨h.1, h.2.1 "q".data, h.2.2 (Except.error "down".data)⟩

/-- C5: a provider response without a `shopping_results` array resolves
successfully with the empty list — zero listings is a non-error outcome. -/
theorem searchProductPrices_no_array_empty (key : Option (List Char))
    (json : SerpApiResponse) (hk : credentialMissing key = false)
    (hj : json.shopping_results = none) :
    searchProductPrices key (UpstreamOutcome.ok json) = Except.ok [] := by
  simp [searchProductPrices, hk, processResponse, hj]

/-- Witness for C5 on the array-less sample response. -/
theorem searchProductPrices_no_array_empty_witness :
    searchProductPrices (some ['k']) (UpstreamOutcome.ok respEmpty) = Except.ok [] :=
  searchProductPrices_no_array_empty (some ['k']) respEmpty rfl rfl

/-- C6 (amended): `truncateString` never yields more than the column width
and leaves within-width values unchanged; the seller and title cells are
truncated and padded to exactly 30 and 60 characters; the price cell is the
padded formatted price with no truncation applied (and may therefore exceed
width 15). -/
theorem displayTable_truncation (r : ShoppingResult) (s : List Char) (w : Nat)
    (hw : 3 ≤ w) :
    (truncateString s w).length ≤ w ∧
    (s.length ≤ w → truncateString s w = s) ∧
    (sellerCell r).length = 30 ∧ (titleCell r).length = 60 ∧
    priceCell r = padString (formatPrice r.extracted_price) 15 := by
  refine ⟨truncateString_length_le s w hw, fun h => by simp [truncateString, h], ?_, ?_, rfl⟩
  · rw [sellerCell, padString_length]
    have := truncateString_length_le
      (if r.source.isEmpty then "Unknown".data else r.source) 30 (by omega)
    omega
  · rw [titleCell, padString_length]
    have := truncateString_length_le
      (if r.title.isEmpty then "No title".data else r.title) 60 (by omega)
    omega

/-- Witness for C6 at width 3 and the huge-price listing. -/
theorem displayTable_truncation_witness :
    (truncateString "a".data 3).length ≤ 3 ∧
    truncateString "a".data 3 = "a".data ∧
    (sellerCell hugeListing).length = 30 ∧ (titleCell hugeListing).length = 60 ∧
    priceCell hugeListing = padString (formatPrice hugeListing.extracted_price) 15 := by
  have h := displayTable_truncation hugeListing "a".data 3 (by omega)
  exact ⟨h.1, h.2.1 (by decide), h.2.2.1, h.2.2.2.1, h.2.2.2.2⟩

/-- C6 counterexample: an extracted price of 1234567890 formats to 17
characters, so the rendered price cell exceeds its column width of 15 —
the price column is never truncated. -/
theorem displayTable_price_cell_refuted :
    (priceCell hugeListing).length = 17 ∧ ¬((priceCell hugeListing).length ≤ 15) ∧
    (renderRow hugeListing).length = 113 := by
  decide

/-- C7: `displayTable` on the empty list renders the literal no-results
marker and a footer reporting count 0; on a list of length N it renders
exactly N data rows and a footer reporting count N. -/
theorem displayTable_shape (rs : List ShoppingResult) :
    (rs = [] → noResultsLine ∈ displayTable rs ∧ footerLine 0 ∈ displayTable rs) ∧
    displayTable rs = ('\n' :: eqSepLine) :: headerLine :: eqSepLine :: dashSepLine ::
      bodyRows rs ++ [eqSepLine, footerLine rs.length] ∧
    (rs ≠ [] → bodyRows rs = rs.map renderRow ∧ (bodyRows rs).length = rs.length) := by
  refine ⟨?_, rfl, ?_⟩
  · rintro rfl
    exact ⟨by decide, by decide⟩
  · intro h
    have hlen : rs.length ≠ 0 := by simpa [List.length_eq_zero] using h
    exact ⟨by simp [bodyRows, hlen], by simp [bodyRows, hlen]⟩

/-- Witness for C7: the empty table shows the marker with count 0, and a
one-listing table has exactly one data row. -/
theorem displayTable_shape_witness :
    (noResultsLine ∈ displayTable [] ∧ footerLine 0 ∈ displayTable []) ∧
    bodyRows [sampleListing] = [sampleListing].map renderRow ∧
    (bodyRows [sampleListing]).length = [sampleListing].length :=
  ⟨(displayTable_shape []).1 rfl, (displayTable_shape [sampleListing]).2.2 (by decide)⟩

/-- C8: `searchProductPrices` returns exactly one output listing per element
of the response's `shopping_results`, in the same order, and every field
other than `title` and `source` is returned unchanged (`title` and `source`
are their `keepEnglish` images). -/
theorem searchProductPrices_frame (key : Option (List Char)) (json : SerpApiResponse)
    (hk : credentialMissing key = false) :
    searchProductPrices key (UpstreamOutcome.ok json) =
      Except.ok (processResponse json) ∧
    (processResponse json).length = (json.shopping_results.getD []).length ∧
    ∀ i (h1 : i < (processResponse json).length)
      (h2 : i < (json.shopping_results.getD []).length),
      ((processResponse json).get ⟨i, h1⟩).position =
        ((json.shopping_results.getD []).get ⟨i, h2⟩).position ∧
      ((processResponse json).get ⟨i, h1⟩).link =
        ((json.shopping_results.getD []).get ⟨i, h2⟩).link ∧
      ((processResponse json).get ⟨i, h1⟩).price =
        ((json.shopping_results.getD []).get ⟨i, h2⟩).price ∧
      ((processResponse json).get ⟨i, h1⟩).extracted_price =
        ((json.shopping_results.getD []).get ⟨i, h2⟩).extracted_price ∧
      ((processResponse json).get ⟨i, h1⟩).rating =
        ((json.shopping_results.getD []).get ⟨i, h2⟩).rating ∧
      ((processResponse json).get ⟨i, h1⟩).reviews =
        ((json.shopping_results.getD []).get ⟨i, h2⟩).reviews ∧
      ((processResponse json).get ⟨i, h1⟩).thumbnail =
        ((json.shopping_results.getD []).get ⟨i, h2⟩).thumbnail ∧
      ((processResponse json).get ⟨i, h1⟩).title =
        keepEnglish ((json.shopping_results.getD []).get ⟨i, h2⟩).title ∧
      ((processResponse json).get ⟨i, h1⟩).source =
        keepEnglish ((json.shopping_results.getD []).get ⟨i, h2⟩).source := by
  refine ⟨by simp [searchProductPrices, hk], by simp [processResponse], ?_⟩
  intro i h1 h2
  have hget : (processResponse json).get ⟨i, h1⟩ =
      normalizeListing ((json.shopping_results.getD []).get ⟨i, h2⟩) := by
    simp [processResponse, List.get_eq_getElem, List.getElem_map]
  rw [hget]
  simp [normalizeListing]

/-- Witness for C8 on the sample response. -/
theorem searchProductPrices_frame_witness :
    searchProductPrices (some ['k']) (UpstreamOutcome.ok sampleResp) =
      Except.ok (processResponse sampleResp) ∧
    (processResponse sampleResp).length =
      (sampleResp.shopping_results.getD []).length := by
  have h := searchProductPrices_frame (some ['k']) sampleResp rfl
  exact ⟨h.1, h.2.1⟩

/-- C9: `displayTable` renders an empty `source` as the fallback `Unknown`
and an empty `title` as the fallback `No title` (a missing field reaches the
formatter as the empty string); rendering is total on such listings. -/
theorem displayTable_fallbacks (r : ShoppingResult) :
    (r.source = [] → sellerCell r = padString (truncateString "Unknown".data 30) 30) ∧
    (r.title = [] → titleCell r = padString (truncateString "No title".data 60) 60) ∧
    renderRow r = sellerCell r ++ " | ".data ++ priceCell r ++ " | ".data ++ titleCell r :=
  ⟨fun h => by simp [sellerCell, h], fun h => by simp [titleCell, h], rfl⟩

/-- Witness for C9 on a listing with empty text fields. -/
theorem displayTable_fallbacks_witness :
    sellerCell emptyFieldsListing = padString (truncateString "Unknown".data 30) 30 ∧
    titleCell emptyFieldsListing = padString (truncateString "No title".data 60) 60 :=
  ⟨(displayTable_fallbacks emptyFieldsListing).1 rfl,
    (displayTable_fallbacks emptyFieldsListing).2.1 rfl⟩

/-- Sanity checks of the query builder against the specification's testable
properties (§8): empty inputs, user-only input, short-token rejection, and
case insensitivity (where, as in C1, the length filter drops `5g`). -/
theorem buildSearchQuery_spec_checks :
    buildSearchQuery [] [] = [] ∧
    buildSearchQuery "galaxy s24".data [] = "galaxy s24".data ∧
    buildSearchQuery "phone".data "5g ai pro".data = "phone pro".data ∧
    buildSearchQuery "IQOO Neo".data "iqoo neo 5G".data = "iqoo neo".data :=
  ⟨by decide, by decide, by decide, by decide⟩

end CompetitiveAnalysis
